import Mathlib

/-!
Verification development for the social-media follower monitor
(scheduler + crawlers + persistence store).  Shallow embedding of the
Python source: SQLite tables become lists of rows, timestamps become
abstract Nat ticks, network traffic becomes explicit outcome values.
-/

namespace SMM

/-! ## Data model (core/database.py, CREATE TABLE statements) -/

/-- Row of the `users` table (database.py lines 68-82).  The DB-side
`created_at`/`updated_at` defaults are modelled by the explicit `now`
argument each operation passes. -/
structure UserRow where
  id : Nat
  platform_id : Nat
  user_id : String
  username : String
  user_identity : String
  avatar : String
  is_active : Nat
  created_at : Nat
  updated_at : Nat
deriving DecidableEq

/-- Row of the `follower_records` table (database.py lines 84-98).
The DB-side `created_at` default is not modelled. -/
structure RecordRow where
  id : Nat
  user_id : Nat
  platform_id : Nat
  user_identity : String
  follower_count : Nat
  record_time : Nat
  status : String
  error_message : String
deriving DecidableEq

/-- Row of the `schedule_tasks` table (database.py lines 100-116),
restricted to the fields the scheduler reads and writes. -/
structure TaskRow where
  id : Nat
  task_name : String
  schedule_time : String
  is_enabled : Bool
  last_run_time : Option Nat
  next_run_time : Option Nat
  retry_count : Nat
  max_retry : Nat
  status : String
  updated_at : Nat
deriving DecidableEq

/-- Row of the `task_logs` table (database.py lines 118-132). -/
structure TaskLogRow where
  id : Nat
  task_id : Nat
  start_time : Nat
  end_time : Option Nat
  status : String
  records_count : Nat
  success_count : Nat
  failed_count : Nat
  error_message : String
deriving DecidableEq

/-- State of the operational database `social_media_monitor.db`:
table contents plus the next AUTOINCREMENT id of each table used. -/
structure DbState where
  users : List UserRow
  records : List RecordRow
  tasks : List TaskRow
  logs : List TaskLogRow
  nextUserId : Nat
  nextRecordId : Nat
  nextLogId : Nat
deriving DecidableEq

/-! ## Persistence operations (core/database.py) -/

/-- Key predicate of the UNIQUE(platform_id, user_id) constraint on `users`. -/
def userKeyMatches (platformId : Nat) (userId : String) (u : UserRow) : Bool :=
  u.platform_id == platformId && u.user_id == userId

/-- Embeds `Database.get_user_by_platform_and_id` (database.py lines 319-337):
SELECT with fetchone returns the first matching row. -/
def get_user_by_platform_and_id (db : DbState) (platformId : Nat) (userId : String) :
    Option UserRow :=
  db.users.find? (userKeyMatches platformId userId)

/-- Update applied by `Database.insert_user` to an existing row
(database.py lines 262-286): each of username / user_identity / avatar is
written only when the supplied value is non-empty (Python truthiness),
and `updated_at` is always refreshed. -/
def applyUserUpdate (username userIdentity avatar : String) (now : Nat)
    (u : UserRow) : UserRow :=
  { u with
    username := if username ≠ "" then username else u.username,
    user_identity := if userIdentity ≠ "" then userIdentity else u.user_identity,
    avatar := if avatar ≠ "" then avatar else u.avatar,
    updated_at := now }

/-- Embeds `Database.insert_user` (database.py lines 237-295): INSERT OR
IGNORE keyed on (platform_id, user_id); when the key already exists
(the insert is ignored, lastrowid 0 on the per-operation fresh
connection) the UPDATE branch rewrites only the non-empty supplied
fields plus `updated_at` on every matching row, then the id of the
first matching row is returned.  Returns the new state and the row id. -/
def insert_user (db : DbState) (platformId : Nat)
    (userId username userIdentity avatar : String) (now : Nat) : DbState × Nat :=
  if db.users.any (userKeyMatches platformId userId) then
    let users' := db.users.map fun u =>
      if userKeyMatches platformId userId u then
        applyUserUpdate username userIdentity avatar now u
      else u
    let rid := match users'.find? (userKeyMatches platformId userId) with
      | some u => u.id
      | none => 0
    ({ db with users := users' }, rid)
  else
    ({ db with
        users := db.users ++
          [⟨db.nextUserId, platformId, userId, username, userIdentity, avatar, 1, now, now⟩],
        nextUserId := db.nextUserId + 1 },
      db.nextUserId)

/-- Embeds `Database.update_user_identity` (database.py lines 297-317):
UPDATE sets only `user_identity` and `updated_at` on rows matching
(platform_id, user_id); the Bool is rowcount > 0. -/
def update_user_identity (db : DbState) (platformId : Nat)
    (userId userIdentity : String) (now : Nat) : DbState × Bool :=
  ({ db with users := db.users.map fun u =>
      if userKeyMatches platformId userId u then
        { u with user_identity := userIdentity, updated_at := now }
      else u },
    db.users.any (userKeyMatches platformId userId))

/-- Embeds `Database.insert_follower_record` (database.py lines 357-387):
a pure append into `follower_records`; AUTOINCREMENT ids grow with
insertion order.  Returns the new state and the inserted id. -/
def insert_follower_record (db : DbState) (userId platformId : Nat)
    (userIdentity : String) (followerCount : Nat) (recordTime : Nat)
    (status errorMessage : String) : DbState × Nat :=
  ({ db with
      records := db.records ++
        [⟨db.nextRecordId, userId, platformId, userIdentity, followerCount,
          recordTime, status, errorMessage⟩],
      nextRecordId := db.nextRecordId + 1 },
    db.nextRecordId)

/-- Scan step of `Database.get_latest_follower_count` (database.py lines
445-462), whose query is SELECT follower_count WHERE user_id ORDER BY
record_time DESC LIMIT 1.  The query has no secondary sort key and no
index on record_time, so SQLite scans `follower_records` in rowid
(= insertion) order and the LIMIT-1 sort replaces its candidate only on
a strictly greater key: among rows with equal maximal record_time the
EARLIEST inserted row is returned (checked against SQLite 3.40). -/
def latestStep (best : Option RecordRow) (r : RecordRow) : Option RecordRow :=
  match best with
  | none => some r
  | some b => if r.record_time > b.record_time then some r else some b

/-- The ORDER BY record_time DESC LIMIT 1 query of
`Database.get_latest_follower_count`, evaluated as the scan described
above via `latestStep`, then projected to the selected column. -/
def get_latest_follower_count (db : DbState) (userId : Nat) : Option Nat :=
  let rows := db.records.filter fun r => r.user_id == userId
  (rows.foldl latestStep none).map (fun r => r.follower_count)

/-! ## Batch status derivation (core/scheduler.py line 243) -/

/-- Embeds the status expression of `TaskScheduler._execute_task`
(scheduler.py line 243): success when failed_count is 0, else
partial_success when success_count > 0, else failed. -/
def deriveBatchStatus (successCount failedCount : Nat) : String :=
  if failedCount = 0 then "success"
  else if successCount > 0 then "partial_success"
  else "failed"

/-! ## C1 theorems -/

/-- C1 counterexample: the claim says the empty batch (N = 0, K = 0) is
treated as "failed", but scheduler.py line 243 derives "success" for it
(failed_count = 0 takes the first branch regardless of success_count). -/
theorem deriveBatchStatus_empty_batch_success :
    deriveBatchStatus 0 0 = "success" ∧ deriveBatchStatus 0 0 ≠ "failed" := by
  exact ⟨rfl, by decide⟩

/-- C1 amended: for a batch of S successes and K failures (N = S + K
targets), the derived run-log status is "success" iff K = 0 — including
the empty batch N = 0, which the code treats as "success", not
"failed"; "partial_success" iff 0 < K < N; "failed" iff K = N and N > 0. -/
theorem deriveBatchStatus_characterization (S K : Nat) :
    (deriveBatchStatus S K = "success" ↔ K = 0)
    ∧ (deriveBatchStatus S K = "partial_success" ↔ 0 < K ∧ K < S + K)
    ∧ (deriveBatchStatus S K = "failed" ↔ K = S + K ∧ 0 < S + K) := by
  have h1 : ("success" : String) ≠ "partial_success" := by decide
  have h2 : ("success" : String) ≠ "failed" := by decide
  have h3 : ("partial_success" : String) ≠ "success" := by decide
  have h4 : ("partial_success" : String) ≠ "failed" := by decide
  have h5 : ("failed" : String) ≠ "success" := by decide
  have h6 : ("failed" : String) ≠ "partial_success" := by decide
  unfold deriveBatchStatus
  by_cases hK : K = 0
  · rw [if_pos hK]
    exact ⟨⟨fun _ => hK, fun _ => rfl⟩,
           ⟨fun h => absurd h h1, fun h => (by omega : False).elim⟩,
           ⟨fun h => absurd h h2, fun h => (by omega : False).elim⟩⟩
  · by_cases hS : S > 0
    · rw [if_neg hK, if_pos hS]
      exact ⟨⟨fun h => absurd h h3, fun h => absurd h hK⟩,
             ⟨fun _ => ⟨by omega, by omega⟩, fun _ => rfl⟩,
             ⟨fun h => absurd h h4, fun h => (by omega : False).elim⟩⟩
    · rw [if_neg hK, if_neg hS]
      exact ⟨⟨fun h => absurd h h5, fun h => absurd h hK⟩,
             ⟨fun h => absurd h h6, fun h => (by omega : False).elim⟩,
             ⟨fun _ => ⟨by omega, by omega⟩, fun _ => rfl⟩⟩

/-- C1 witness: the amended characterization at a mixed batch of one
success and one failure. -/
theorem deriveBatchStatus_characterization_witness :
    deriveBatchStatus 1 1 = "partial_success" :=
  ((deriveBatchStatus_characterization 1 1).2.1).mpr ⟨by decide, by decide⟩

/-! ## Credential store (core/cookie_database.py) -/

/-- Row of the `cookies` table (cookie_database.py lines 71-79);
`platform` carries a UNIQUE constraint. -/
structure CookieRow where
  platform : String
  cookie : String
  updated_at : Nat
deriving DecidableEq

/-- Embeds `CookieDatabase.save_cookie` (cookie_database.py lines 83-107):
INSERT OR REPLACE keyed on the unique `platform` column; on an exception
(`raises`) the transaction is rolled back and False is returned. -/
def save_cookie (rows : List CookieRow) (platform cookie : String) (now : Nat)
    (raises : Bool) : List CookieRow × Bool :=
  if raises then (rows, false)
  else ((rows.filter fun r => r.platform ≠ platform) ++ [⟨platform, cookie, now⟩], true)

/-- Embeds `CookieDatabase.get_cookie` (cookie_database.py lines 109-131):
SELECT cookie WHERE platform ORDER BY updated_at DESC LIMIT 1, None when
no row matches.  As in `get_latest_follower_count`, SQLite returns the
earliest-inserted row among equal keys; the UNIQUE constraint makes at
most one row match anyway. -/
def get_cookie (rows : List CookieRow) (platform : String) : Option String :=
  ((rows.filter fun r => r.platform == platform).foldl (fun best r =>
    match best with
    | none => some r
    | some b => if r.updated_at > b.updated_at then some r else some b) none).map
    (fun r => r.cookie)

/-- Embeds `CookieDatabase.delete_cookie` (cookie_database.py lines 150-169):
DELETE WHERE platform, then True unconditionally — the rowcount is never
inspected; False only when the storage operation raises, in which case
the transaction is rolled back. -/
def delete_cookie (rows : List CookieRow) (platform : String) (raises : Bool) :
    List CookieRow × Bool :=
  if raises then (rows, false)
  else (rows.filter fun r => r.platform ≠ platform, true)

/-! ## Crawler credential resolution (core/crawlers) -/

/-- Embeds `WeiboCrawler._get_cookie` (weibo_crawler.py lines 32-42): the
construction-time cookie when truthy (non-empty), else the store's
current weibo value when truthy, else the static config fallback.  The
store rows are an argument, so the chain is re-evaluated at every call. -/
def weibo_get_cookie (fixedCookie : String) (rows : List CookieRow)
    (fallback : String) : String :=
  if fixedCookie ≠ "" then fixedCookie
  else
    match get_cookie rows "weibo" with
    | some c => if c ≠ "" then c else fallback
    | none => fallback

/-- Embeds `DouyinCrawler._get_cookie` (douyin_crawler.py lines 36-52),
identical chain with platform key "douyin". -/
def douyin_get_cookie (fixedCookie : String) (rows : List CookieRow)
    (fallback : String) : String :=
  if fixedCookie ≠ "" then fixedCookie
  else
    match get_cookie rows "douyin" with
    | some c => if c ≠ "" then c else fallback
    | none => fallback

/-! ## Request layer (get_html of the crawlers) -/

/-- Outcome of one HTTP request: a response with status code and body
text, or a network-level exception (timeout / connection failure). -/
inductive HttpOutcome where
  | response (statusCode : Nat) (text : String)
  | netError (msg : String)
deriving DecidableEq

/-- Cause carried by a failed fetch: the raised `requests.HTTPError`
status (from raise_for_status) or the network-level exception. -/
inductive ReqError where
  | httpStatus (code : Nat)
  | network (msg : String)
deriving DecidableEq

/-- Result of `get_html`: the response text, or the re-raised exception. -/
inductive ReqResult where
  | ok (text : String)
  | err (e : ReqError)
deriving DecidableEq

/-- Observable trace of one `get_html` call: how many HTTP requests were
issued, the credential attached to them (none when the resolved cookie
is empty), every sleep performed (seconds), and the returned value or
raised error. -/
structure FetchTrace where
  requests : Nat
  cookieHeader : Option String
  sleeps : List Nat
  result : ReqResult
deriving DecidableEq

/-- Embeds `WeiboCrawler.get_html` (weibo_crawler.py lines 44-69): resolve
the cookie, issue ONE requests.get (cookies dict empty when the cookie
is empty), raise_for_status (raises on 4xx/5xx), sleep the fixed delay
only after a successful response, and re-raise any RequestException. -/
def weibo_get_html (fixedCookie : String) (rows : List CookieRow)
    (fallback : String) (delay : Nat) (outcome : HttpOutcome) : FetchTrace :=
  let c := weibo_get_cookie fixedCookie rows fallback
  let hdr : Option String := if c ≠ "" then some c else none
  match outcome with
  | .netError msg => ⟨1, hdr, [], .err (.network msg)⟩
  | .response code text =>
    if 400 ≤ code ∧ code < 600 then ⟨1, hdr, [], .err (.httpStatus code)⟩
    else ⟨1, hdr, [delay], .ok text⟩

/-- Embeds `DouyinCrawler.get_html` (douyin_crawler.py lines 54-115): the
same single-request shape — the Cookie header is set only when the
resolved cookie is non-empty, raise_for_status raises on 4xx/5xx, the
fixed delay is slept only on success, and every caught
Timeout / ConnectionError / HTTPError / RequestException is re-raised. -/
def douyin_get_html (fixedCookie : String) (rows : List CookieRow)
    (fallback : String) (delay : Nat) (outcome : HttpOutcome) : FetchTrace :=
  let c := douyin_get_cookie fixedCookie rows fallback
  let hdr : Option String := if c ≠ "" then some c else none
  match outcome with
  | .netError msg => ⟨1, hdr, [], .err (.network msg)⟩
  | .response code text =>
    if 400 ≤ code ∧ code < 600 then ⟨1, hdr, [], .err (.httpStatus code)⟩
    else ⟨1, hdr, [delay], .ok text⟩

/-! ## Helper lemmas on the cookies table -/

theorem cookie_filter_self (l : List CookieRow) (p : String) :
    (l.filter fun r => r.platform ≠ p).filter (fun r => r.platform == p) = [] := by
  induction l with
  | nil => rfl
  | cons r rs ih =>
    by_cases h : r.platform = p
    · simp [List.filter_cons, h, ih]
    · simp [List.filter_cons, h, ih]

theorem cookie_filter_other (l : List CookieRow) (p q : String) (h : q ≠ p) :
    (l.filter fun r => r.platform ≠ p).filter (fun r => r.platform == q) =
      l.filter (fun r => r.platform == q) := by
  rw [List.filter_filter]
  apply List.filter_congr
  intro x _
  by_cases hq : x.platform = q
  · have hp : ¬ x.platform = p := by rw [hq]; exact h
    simp [hq, hp, h]
  · simp [hq]

theorem get_cookie_after_save (rows : List CookieRow) (p t : String) (now : Nat) :
    get_cookie (save_cookie rows p t now false).1 p = some t := by
  simp only [save_cookie, if_neg (by decide : ¬ (false : Bool) = true)]
  simp only [get_cookie, List.filter_append, cookie_filter_self]
  simp [List.filter_cons, List.foldl]

/-! ## C2 theorems -/

/-- C2 counterexample: the claim requires bounded retry (3 attempts, with
2 × attempt backoff on HTTP 403), but `get_html` of both crawlers issues
exactly one request and re-raises the HTTPError at once: with an empty
credential and a 403 response the trace shows 1 request (not 3) and no
backoff sleep at all. -/
theorem get_html_403_no_retry :
    (weibo_get_html "" [] "" 3 (.response 403 "x")).requests = 1
    ∧ (weibo_get_html "" [] "" 3 (.response 403 "x")).requests ≠ 3
    ∧ (weibo_get_html "" [] "" 3 (.response 403 "x")).sleeps = []
    ∧ (weibo_get_html "" [] "" 3 (.response 403 "x")).result = .err (.httpStatus 403)
    ∧ (douyin_get_html "" [] "" 2 (.response 403 "x")).requests = 1
    ∧ (douyin_get_html "" [] "" 2 (.response 403 "x")).sleeps = [] := by
  exact ⟨rfl, by decide, rfl, rfl, rfl, rfl⟩

/-- C2 amended: the request layer performs NO retry.  Every `get_html`
call of the weibo and douyin crawlers issues exactly one HTTP request;
a 4xx/5xx status yields the typed HTTP-status error with no backoff
sleep; a network-level exception propagates with no backoff sleep; a
successful response returns the body text and sleeps only the fixed
inter-request delay; and an empty resolved credential does not prevent
the request — it is issued with no credential attached.  A failure is
never converted into an empty success. -/
theorem get_html_single_attempt (fixedCookie : String) (rows : List CookieRow)
    (fallback : String) (delay : Nat) :
    (∀ o, (weibo_get_html fixedCookie rows fallback delay o).requests = 1
        ∧ (douyin_get_html fixedCookie rows fallback delay o).requests = 1)
    ∧ (∀ code text, 400 ≤ code → code < 600 →
        (weibo_get_html fixedCookie rows fallback delay (.response code text)).result
            = .err (.httpStatus code)
        ∧ (weibo_get_html fixedCookie rows fallback delay (.response code text)).sleeps = []
        ∧ (douyin_get_html fixedCookie rows fallback delay (.response code text)).result
            = .err (.httpStatus code)
        ∧ (douyin_get_html fixedCookie rows fallback delay (.response code text)).sleeps = [])
    ∧ (∀ msg,
        (weibo_get_html fixedCookie rows fallback delay (.netError msg)).result
            = .err (.network msg)
        ∧ (weibo_get_html fixedCookie rows fallback delay (.netError msg)).sleeps = []
        ∧ (douyin_get_html fixedCookie rows fallback delay (.netError msg)).result
            = .err (.network msg)
        ∧ (douyin_get_html fixedCookie rows fallback delay (.netError msg)).sleeps = [])
    ∧ (∀ code text, code < 400 →
        (weibo_get_html fixedCookie rows fallback delay (.response code text)).result
            = .ok text
        ∧ (weibo_get_html fixedCookie rows fallback delay (.response code text)).sleeps = [delay]
        ∧ (douyin_get_html fixedCookie rows fallback delay (.response code text)).result
            = .ok text
        ∧ (douyin_get_html fixedCookie rows fallback delay (.response code text)).sleeps = [delay])
    ∧ (∀ o, weibo_get_cookie fixedCookie rows fallback = "" →
        (weibo_get_html fixedCookie rows fallback delay o).cookieHeader = none)
    ∧ (∀ o, douyin_get_cookie fixedCookie rows fallback = "" →
        (douyin_get_html fixedCookie rows fallback delay o).cookieHeader = none) := by
  refine ⟨fun o => ?_, fun code text h4 h6 => ?_, fun msg => ?_,
    fun code text hlt => ?_, fun o hc => ?_, fun o hc => ?_⟩
  · cases o with
    | netError msg => exact ⟨rfl, rfl⟩
    | response code text =>
      constructor
      · simp only [weibo_get_html]
        split
        · rfl
        · rfl
      · simp only [douyin_get_html]
        split
        · rfl
        · rfl
  · have hcond : 400 ≤ code ∧ code < 600 := ⟨h4, h6⟩
    simp [weibo_get_html, douyin_get_html, hcond]
  · simp [weibo_get_html, douyin_get_html]
  · have hcond : ¬ (400 ≤ code ∧ code < 600) := by omega
    simp [weibo_get_html, douyin_get_html, hcond]
  · cases o with
    | netError msg => simp [weibo_get_html, hc]
    | response code text =>
      simp only [weibo_get_html, hc]
      split <;> rfl
  · cases o with
    | netError msg => simp [douyin_get_html, hc]
    | response code text =>
      simp only [douyin_get_html, hc]
      split <;> rfl

/-- C2 witness: the amended theorem applied at a concrete fetch. -/
theorem get_html_single_attempt_witness :
    (weibo_get_html "tok" [] "" 3 (.response 403 "x")).result = .err (.httpStatus 403)
    ∧ (douyin_get_html "tok" [] "" 3 (.netError "timeout")).result
        = .err (.network "timeout")
    ∧ (weibo_get_html "tok" [] "" 3 (.response 200 "body")).result = .ok "body" :=
  ⟨((get_html_single_attempt "tok" [] "" 3).2.1 403 "x" (by decide) (by decide)).1,
   ((get_html_single_attempt "tok" [] "" 3).2.2.1 "timeout").2.2.1,
   ((get_html_single_attempt "tok" [] "" 3).2.2.2.1 200 "body" (by decide)).1⟩

/-! ## C4 theorems -/

/-- C4: credential resolution chain of both crawlers, re-evaluated on
every fetch: a non-empty construction-time cookie wins; else the store's
current non-empty value for the platform; else the static fallback; and
because the chain reads the store at fetch time, a token saved to the
store between two fetches is attached to the later fetch when no
construction-time cookie was supplied. -/
theorem credential_chain (fixedCookie : String) (rows : List CookieRow)
    (fallback : String) :
    (fixedCookie ≠ "" →
        weibo_get_cookie fixedCookie rows fallback = fixedCookie
        ∧ douyin_get_cookie fixedCookie rows fallback = fixedCookie)
    ∧ (∀ c, fixedCookie = "" → get_cookie rows "weibo" = some c → c ≠ "" →
        weibo_get_cookie fixedCookie rows fallback = c)
    ∧ (∀ c, fixedCookie = "" → get_cookie rows "douyin" = some c → c ≠ "" →
        douyin_get_cookie fixedCookie rows fallback = c)
    ∧ (fixedCookie = "" → get_cookie rows "weibo" = none →
        weibo_get_cookie fixedCookie rows fallback = fallback)
    ∧ (fixedCookie = "" → get_cookie rows "douyin" = none →
        douyin_get_cookie fixedCookie rows fallback = fallback)
    ∧ (∀ t now delay o, fixedCookie = "" → t ≠ "" →
        (weibo_get_html fixedCookie (save_cookie rows "weibo" t now false).1
            fallback delay o).cookieHeader = some t)
    ∧ (∀ t now delay o, fixedCookie = "" → t ≠ "" →
        (douyin_get_html fixedCookie (save_cookie rows "douyin" t now false).1
            fallback delay o).cookieHeader = some t) := by
  refine ⟨fun h => ?_, fun c h0 hs hc => ?_, fun c h0 hs hc => ?_,
    fun h0 hs => ?_, fun h0 hs => ?_, fun t now delay o h0 ht => ?_,
    fun t now delay o h0 ht => ?_⟩
  · exact ⟨by simp [weibo_get_cookie, h], by simp [douyin_get_cookie, h]⟩
  · simp [weibo_get_cookie, h0, hs, hc]
  · simp [douyin_get_cookie, h0, hs, hc]
  · simp [weibo_get_cookie, h0, hs]
  · simp [douyin_get_cookie, h0, hs]
  · have hres : weibo_get_cookie fixedCookie (save_cookie rows "weibo" t now false).1
        fallback = t := by
      simp [weibo_get_cookie, h0, get_cookie_after_save, ht]
    cases o with
    | netError msg => simp [weibo_get_html, hres, ht]
    | response code text =>
      simp only [weibo_get_html, hres, if_pos ht]
      split <;> rfl
  · have hres : douyin_get_cookie fixedCookie (save_cookie rows "douyin" t now false).1
        fallback = t := by
      simp [douyin_get_cookie, h0, get_cookie_after_save, ht]
    cases o with
    | netError msg => simp [douyin_get_html, hres, ht]
    | response code text =>
      simp only [douyin_get_html, hres, if_pos ht]
      split <;> rfl

/-- C4 witness: the chain and the mid-run refresh at concrete inputs. -/
theorem credential_chain_witness :
    weibo_get_cookie "fix" [] "fb" = "fix"
    ∧ douyin_get_cookie "" [⟨"douyin", "db", 5⟩] "fb" = "db"
    ∧ weibo_get_cookie "" [] "fb" = "fb"
    ∧ (weibo_get_html "" (save_cookie [] "weibo" "fresh" 7 false).1 "fb" 3
        (.response 200 "b")).cookieHeader = some "fresh" :=
  ⟨((credential_chain "fix" [] "fb").1 (by decide)).1,
   (credential_chain "" [⟨"douyin", "db", 5⟩] "fb").2.2.1 "db" rfl (by decide) (by decide),
   (credential_chain "" [] "fb").2.2.2.1 rfl rfl,
   (credential_chain "" [] "fb").2.2.2.2.2.1 "fresh" 7 3 (.response 200 "b") rfl (by decide)⟩

/-! ## C10 theorems -/

/-- C10: `delete_cookie` returns True whenever the storage operation does
not raise — also when no token was ever saved for the platform (the
rowcount is never inspected); it returns False exactly when the
operation raises; and in either outcome the tokens stored for every
other platform are unchanged. -/
theorem delete_cookie_spec (rows : List CookieRow) (platform : String) :
    ((delete_cookie rows platform false).2 = true)
    ∧ (get_cookie rows platform = none → (delete_cookie rows platform false).2 = true)
    ∧ (∀ raises, ((delete_cookie rows platform raises).2 = false ↔ raises = true))
    ∧ (∀ raises q, q ≠ platform →
        get_cookie (delete_cookie rows platform raises).1 q = get_cookie rows q) := by
  refine ⟨rfl, fun _ => rfl, fun raises => ?_, fun raises q hq => ?_⟩
  · cases raises with
    | false => simp [delete_cookie]
    | true => simp [delete_cookie]
  · cases raises with
    | false => simp only [delete_cookie, if_neg (by decide : ¬ (false : Bool) = true),
        get_cookie, cookie_filter_other rows platform q hq]
    | true => rfl

/-- C10 witness: deleting a never-saved platform succeeds and leaves the
other platform's token in place. -/
theorem delete_cookie_spec_witness :
    (delete_cookie [⟨"weibo", "w", 1⟩] "douyin" false).2 = true
    ∧ get_cookie (delete_cookie [⟨"weibo", "w", 1⟩] "douyin" false).1 "weibo"
        = get_cookie [⟨"weibo", "w", 1⟩] "weibo" :=
  ⟨(delete_cookie_spec [⟨"weibo", "w", 1⟩] "douyin").2.1 rfl,
   (delete_cookie_spec [⟨"weibo", "w", 1⟩] "douyin").2.2.2 false "weibo" (by decide)⟩

/-! ## C8 theorems -/

/-- C8: `update_user_identity` writes only the identity tag and
`updated_at` of the rows matching (platform_id, user_id): every other
field of every row is unchanged, non-matching rows are untouched, the
other tables are untouched, and the returned Bool is true iff some row
matched. -/
theorem update_user_identity_spec (db : DbState) (platformId : Nat)
    (userId tag : String) (now : Nat) :
    ((update_user_identity db platformId userId tag now).1.users.length
        = db.users.length)
    ∧ (∀ (k : Nat) u u', db.users[k]? = some u →
        (update_user_identity db platformId userId tag now).1.users[k]? = some u' →
          u'.id = u.id ∧ u'.platform_id = u.platform_id ∧ u'.user_id = u.user_id
          ∧ u'.username = u.username ∧ u'.avatar = u.avatar
          ∧ u'.is_active = u.is_active ∧ u'.created_at = u.created_at
          ∧ (userKeyMatches platformId userId u = true →
              u'.user_identity = tag ∧ u'.updated_at = now)
          ∧ (userKeyMatches platformId userId u = false → u' = u))
    ∧ ((update_user_identity db platformId userId tag now).1.records = db.records)
    ∧ ((update_user_identity db platformId userId tag now).1.tasks = db.tasks)
    ∧ ((update_user_identity db platformId userId tag now).1.logs = db.logs)
    ∧ ((update_user_identity db platformId userId tag now).2 = true ↔
        ∃ u ∈ db.users, userKeyMatches platformId userId u = true) := by
  refine ⟨by simp [update_user_identity], ?_, rfl, rfl, rfl,
    by simp [update_user_identity, List.any_eq_true]⟩
  intro k u u' hu hu'
  simp only [update_user_identity, List.getElem?_map, hu, Option.map_some'] at hu'
  have hu'' :
      (if userKeyMatches platformId userId u = true then
        { u with user_identity := tag, updated_at := now } else u) = u' :=
    Option.some.inj hu'
  by_cases hm : userKeyMatches platformId userId u = true
  · rw [if_pos hm] at hu''
    subst hu''
    exact ⟨rfl, rfl, rfl, rfl, rfl, rfl, rfl, fun _ => ⟨rfl, rfl⟩,
      fun hfalse => absurd hm (by simp [hfalse])⟩
  · rw [if_neg hm] at hu''
    subst hu''
    exact ⟨rfl, rfl, rfl, rfl, rfl, rfl, rfl, fun htrue => absurd htrue hm,
      fun _ => rfl⟩

/-- Small concrete database used to instantiate the user-table theorems. -/
def sampleUserDb : DbState :=
  ⟨[⟨1, 2, "111", "Alice", "0", "av", 1, 5, 5⟩], [], [], [], 2, 1, 1⟩

/-- C8 witness: re-tagging a concrete one-row table keeps the name. -/
theorem update_user_identity_spec_witness :
    ∃ u', (update_user_identity sampleUserDb 2 "111" "user001" 9).1.users[0]?
        = some u' ∧ u'.username = "Alice" ∧ u'.user_identity = "user001" := by
  refine ⟨⟨1, 2, "111", "Alice", "user001", "av", 1, 5, 9⟩, by decide, ?_, by decide⟩
  exact ((update_user_identity_spec sampleUserDb 2 "111" "user001" 9).2.1 0
    ⟨1, 2, "111", "Alice", "0", "av", 1, 5, 5⟩
    ⟨1, 2, "111", "Alice", "user001", "av", 1, 5, 9⟩ (by decide) (by decide)).2.2.2.1

/-! ## Helper lemmas on insert_user -/

theorem userKeyMatches_applyUserUpdate (platformId : Nat) (userId : String)
    (n i a : String) (now : Nat) (u : UserRow) :
    userKeyMatches platformId userId (applyUserUpdate n i a now u)
      = userKeyMatches platformId userId u := rfl

theorem insert_user_mem_match (db : DbState) (platformId : Nat)
    (userId n i a : String) (now : Nat) :
    ∃ u ∈ (insert_user db platformId userId n i a now).1.users,
      userKeyMatches platformId userId u = true := by
  by_cases h : db.users.any (userKeyMatches platformId userId) = true
  · obtain ⟨u0, hu0, hm⟩ := List.any_eq_true.mp h
    refine ⟨applyUserUpdate n i a now u0, ?_,
      by rw [userKeyMatches_applyUserUpdate]; exact hm⟩
    simp only [insert_user, if_pos h]
    exact List.mem_map.mpr ⟨u0, hu0, by rw [if_pos hm]⟩
  · refine ⟨⟨db.nextUserId, platformId, userId, n, i, a, 1, now, now⟩, ?_,
      by simp [userKeyMatches]⟩
    simp only [insert_user, if_neg h]
    simp

theorem insert_user_username_nonempty (db : DbState) (platformId : Nat)
    (userId n i a : String) (now : Nat) (hn : n ≠ "") :
    ∀ u ∈ (insert_user db platformId userId n i a now).1.users,
      userKeyMatches platformId userId u = true → u.username = n := by
  intro u hu hm
  by_cases h : db.users.any (userKeyMatches platformId userId) = true
  · simp only [insert_user, if_pos h] at hu
    obtain ⟨u0, hu0, heq⟩ := List.mem_map.mp hu
    by_cases hm0 : userKeyMatches platformId userId u0 = true
    · rw [if_pos hm0] at heq
      subst heq
      simp [applyUserUpdate, hn]
    · rw [if_neg hm0] at heq
      subst heq
      exact absurd hm hm0
  · simp only [insert_user, if_neg h] at hu
    rcases List.mem_append.mp hu with h1 | h2
    · exact absurd (List.any_eq_true.mpr ⟨u, h1, hm⟩) h
    · have hu2 : u = ⟨db.nextUserId, platformId, userId, n, i, a, 1, now, now⟩ := by
        simpa using h2
      subst hu2
      rfl

theorem insert_user_username_empty (db : DbState) (platformId : Nat)
    (userId i a : String) (now : Nat)
    (h : db.users.any (userKeyMatches platformId userId) = true) (v : String)
    (hall : ∀ u ∈ db.users, userKeyMatches platformId userId u = true →
      u.username = v) :
    ∀ u ∈ (insert_user db platformId userId "" i a now).1.users,
      userKeyMatches platformId userId u = true → u.username = v := by
  intro u hu hm
  simp only [insert_user, if_pos h] at hu
  obtain ⟨u0, hu0, heq⟩ := List.mem_map.mp hu
  by_cases hm0 : userKeyMatches platformId userId u0 = true
  · rw [if_pos hm0] at heq
    subst heq
    simpa [applyUserUpdate] using hall u0 hu0 hm0
  · rw [if_neg hm0] at heq
    subst heq
    exact absurd hm hm0

/-! ## C6 theorems -/

/-- C6: upserting the same (platform_id, user_id) twice with different
non-empty names leaves the second name stored; a third upsert with an
empty name leaves it unchanged; and on every upsert of an existing row
only the non-empty supplied fields (name, identity tag, avatar) are
written, `updated_at` is always refreshed, every other field and every
non-matching row are unchanged, and no row is added. -/
theorem insert_user_no_clobber (db : DbState) (platformId : Nat)
    (userId n1 n2 i a : String) (t1 t2 t3 : Nat) (h1 : n1 ≠ "") (h2 : n2 ≠ "") :
    let db1 := (insert_user db platformId userId n1 i a t1).1
    let db2 := (insert_user db1 platformId userId n2 i a t2).1
    let db3 := (insert_user db2 platformId userId "" i a t3).1
    (∃ u ∈ db2.users, userKeyMatches platformId userId u = true)
    ∧ (∀ u ∈ db2.users, userKeyMatches platformId userId u = true →
        u.username = n2)
    ∧ (∀ u ∈ db3.users, userKeyMatches platformId userId u = true →
        u.username = n2)
    ∧ (∀ (d : DbState) (n i' a' : String) (now : Nat),
        d.users.any (userKeyMatches platformId userId) = true →
          ((insert_user d platformId userId n i' a' now).1.users.length
              = d.users.length)
          ∧ (∀ (k : Nat) u u', d.users[k]? = some u →
              (insert_user d platformId userId n i' a' now).1.users[k]? = some u' →
                (userKeyMatches platformId userId u = true →
                  u'.username = (if n ≠ "" then n else u.username)
                  ∧ u'.user_identity = (if i' ≠ "" then i' else u.user_identity)
                  ∧ u'.avatar = (if a' ≠ "" then a' else u.avatar)
                  ∧ u'.updated_at = now
                  ∧ u'.id = u.id ∧ u'.platform_id = u.platform_id
                  ∧ u'.user_id = u.user_id ∧ u'.is_active = u.is_active
                  ∧ u'.created_at = u.created_at)
                ∧ (userKeyMatches platformId userId u = false → u' = u))) := by
  intro db1 db2 db3
  have hB := insert_user_username_nonempty db1 platformId userId n2 i a t2 h2
  have hA := insert_user_mem_match db1 platformId userId n2 i a t2
  refine ⟨hA, hB, ?_, ?_⟩
  · obtain ⟨u0, hu0, hm0⟩ := hA
    exact insert_user_username_empty db2 platformId userId i a t3
      (List.any_eq_true.mpr ⟨u0, hu0, hm0⟩) n2 hB
  · intro d n i' a' now hany
    constructor
    · simp only [insert_user, if_pos hany]
      simp
    · intro k u u' hu hu'
      simp only [insert_user, if_pos hany, List.getElem?_map, hu,
        Option.map_some'] at hu'
      have hu'' :
          (if userKeyMatches platformId userId u = true then
            applyUserUpdate n i' a' now u else u) = u' := Option.some.inj hu'
      by_cases hm : userKeyMatches platformId userId u = true
      · rw [if_pos hm] at hu''
        subst hu''
        exact ⟨fun _ => ⟨rfl, rfl, rfl, rfl, rfl, rfl, rfl, rfl, rfl⟩,
          fun hfalse => absurd hm (by simp [hfalse])⟩
      · rw [if_neg hm] at hu''
        subst hu''
        exact ⟨fun htrue => absurd htrue hm, fun _ => rfl⟩

/-- C6 witness: two renames then an empty-name upsert on an initially
empty table leave exactly one row carrying the second name. -/
theorem insert_user_no_clobber_witness :
    ∃ u, (insert_user (insert_user (insert_user ⟨[], [], [], [], 1, 1, 1⟩
        2 "111" "A" "0" "" 1).1 2 "111" "B" "0" "" 2).1
        2 "111" "" "0" "" 3).1.users = [u] ∧ u.username = "B" := by
  refine ⟨⟨1, 2, "111", "B", "0", "", 1, 1, 3⟩, by decide, ?_⟩
  exact (insert_user_no_clobber ⟨[], [], [], [], 1, 1, 1⟩ 2 "111" "A" "B" "0" ""
    1 2 3 (by decide) (by decide)).2.2.1
    ⟨1, 2, "111", "B", "0", "", 1, 1, 3⟩ (by decide) (by decide)

/-! ## Helper lemmas on the latest-record scan -/

theorem latestStep_foldl (l : List RecordRow) : ∀ (b : RecordRow),
    ∃ r, l.foldl latestStep (some b) = some r ∧
      ((r = b ∧ ∀ s ∈ l, s.record_time ≤ b.record_time)
       ∨ (∃ k, ∃ hk : k < l.length, r = l[k]
            ∧ b.record_time < r.record_time
            ∧ (∀ s ∈ l, s.record_time ≤ r.record_time)
            ∧ (∀ j (hj : j < l.length), j < k →
                l[j].record_time < r.record_time))) := by
  induction l with
  | nil =>
    intro b
    exact ⟨b, rfl, Or.inl ⟨rfl, by simp⟩⟩
  | cons aa l ih =>
    intro b
    by_cases hab : aa.record_time > b.record_time
    · obtain ⟨r, hr, hcase⟩ := ih aa
      refine ⟨r, ?_, ?_⟩
      · rw [List.foldl_cons]
        rw [show latestStep (some b) aa = some aa from by simp [latestStep, hab]]
        exact hr
      rcases hcase with ⟨hrb, hall⟩ | ⟨k, hk, hrk, hlt, hall, hfirst⟩
      · subst hrb
        refine Or.inr ⟨0, by simp, by simp, hab, ?_, ?_⟩
        · intro s hs
          rcases List.mem_cons.mp hs with h | h
          · subst h; exact le_refl _
          · exact hall s h
        · intro j hj hj0
          omega
      · refine Or.inr ⟨k + 1, by simpa using hk, by simpa using hrk, ?_, ?_, ?_⟩
        · exact lt_trans hab hlt
        · intro s hs
          rcases List.mem_cons.mp hs with h | h
          · subst h; exact le_of_lt hlt
          · exact hall s h
        · intro j hj hjk
          cases j with
          | zero => simpa using hlt
          | succ j' =>
            have hj' : j' < l.length := by simpa using hj
            have := hfirst j' hj' (by omega)
            simpa using this
    · obtain ⟨r, hr, hcase⟩ := ih b
      refine ⟨r, ?_, ?_⟩
      · rw [List.foldl_cons]
        rw [show latestStep (some b) aa = some b from by simp [latestStep, hab]]
        exact hr
      rcases hcase with ⟨hrb, hall⟩ | ⟨k, hk, hrk, hlt, hall, hfirst⟩
      · refine Or.inl ⟨hrb, ?_⟩
        intro s hs
        rcases List.mem_cons.mp hs with h | h
        · subst h; omega
        · exact hall s h
      · refine Or.inr ⟨k + 1, by simpa using hk, by simpa using hrk, hlt, ?_, ?_⟩
        · intro s hs
          rcases List.mem_cons.mp hs with h | h
          · subst h; omega
          · exact hall s h
        · intro j hj hjk
          cases j with
          | zero =>
            have : aa.record_time ≤ b.record_time := by omega
            simpa using lt_of_le_of_lt this hlt
          | succ j' =>
            have hj' : j' < l.length := by simpa using hj
            have := hfirst j' hj' (by omega)
            simpa using this

theorem latestStep_foldl_none (l : List RecordRow) :
    (l = [] ∧ l.foldl latestStep none = none)
    ∨ ∃ r, l.foldl latestStep none = some r ∧
        ∃ k, ∃ hk : k < l.length, r = l[k]
          ∧ (∀ s ∈ l, s.record_time ≤ r.record_time)
          ∧ (∀ j (hj : j < l.length), j < k →
              l[j].record_time < r.record_time) := by
  cases l with
  | nil => exact Or.inl ⟨rfl, rfl⟩
  | cons r0 rest =>
    obtain ⟨r, hr, hcase⟩ := latestStep_foldl rest r0
    have hfold : (r0 :: rest).foldl latestStep none = some r := by
      rw [List.foldl_cons]
      exact hr
    rcases hcase with ⟨hrb, hall⟩ | ⟨k, hk, hrk, hlt, hall, hfirst⟩
    · subst hrb
      refine Or.inr ⟨r, hfold, 0, by simp, by simp, ?_, fun j hj hj0 => by omega⟩
      intro s hs
      rcases List.mem_cons.mp hs with h | h
      · subst h; exact le_refl _
      · exact hall s h
    · refine Or.inr ⟨r, hfold, k + 1, by simpa using hk, by simpa using hrk, ?_, ?_⟩
      · intro s hs
        rcases List.mem_cons.mp hs with h | h
        · subst h; exact le_of_lt hlt
        · exact hall s h
      · intro j hj hjk
        cases j with
        | zero => simpa using hlt
        | succ j' =>
          have hj' : j' < rest.length := by simpa using hj
          have := hfirst j' hj' (by omega)
          simpa using this

/-! ## C7 theorems -/

/-- Concrete database holding two snapshots for account 7 with the same
record_time, inserted in order: follower_count 100 first, then 200. -/
def tieDb : DbState :=
  (insert_follower_record (insert_follower_record ⟨[], [], [], [], 1, 1, 1⟩
    7 1 "" 100 10 "success" "").1 7 1 "" 200 10 "success" "").1

/-- C7 counterexample: on a record-time tie the claim says the most
recently inserted snapshot wins (here 200), but the query returns the
earliest inserted one (100): the scan in rowid order replaces its
candidate only on a strictly greater record_time. -/
theorem get_latest_tie_earliest_wins :
    get_latest_follower_count tieDb 7 = some 100
    ∧ get_latest_follower_count tieDb 7 ≠ some 200 := by
  exact ⟨by decide, by decide⟩

/-- C7 amended: for an account with no snapshots the query returns
absence; otherwise it returns the follower_count of a snapshot with the
maximum record timestamp among the account's snapshots, with ties on
the timestamp broken by insertion order so that the EARLIEST inserted
snapshot among the tied ones wins (every strictly earlier row has a
strictly smaller record_time). -/
theorem get_latest_follower_count_spec (db : DbState) (userId : Nat) :
    (get_latest_follower_count db userId = none ↔
      db.records.filter (fun r => r.user_id == userId) = [])
    ∧ (∀ c, get_latest_follower_count db userId = some c →
        ∃ k, ∃ hk : k < (db.records.filter (fun r => r.user_id == userId)).length,
          ((db.records.filter (fun r => r.user_id == userId))[k]).follower_count = c
          ∧ (∀ s ∈ db.records.filter (fun r => r.user_id == userId),
              s.record_time ≤
                ((db.records.filter (fun r => r.user_id == userId))[k]).record_time)
          ∧ (∀ j (hj : j < (db.records.filter (fun r => r.user_id == userId)).length),
              j < k →
                ((db.records.filter (fun r => r.user_id == userId))[j]).record_time
                  < ((db.records.filter
                      (fun r => r.user_id == userId))[k]).record_time)) := by
  rcases latestStep_foldl_none (db.records.filter (fun r => r.user_id == userId)) with
    ⟨hnil, hfold⟩ | ⟨r, hfold, k, hk, hrk, hall, hfirst⟩
  · constructor
    · simp only [get_latest_follower_count, hfold, Option.map_none']
      exact ⟨fun _ => hnil, fun _ => trivial⟩
    · intro c hc
      simp only [get_latest_follower_count, hfold, Option.map_none'] at hc
      exact absurd hc (by simp)
  · constructor
    · simp only [get_latest_follower_count, hfold, Option.map_some']
      constructor
      · intro h
        exact absurd h (by simp)
      · intro h
        rw [h] at hk
        exact absurd hk (by simp)
    · intro c hc
      simp only [get_latest_follower_count, hfold, Option.map_some'] at hc
      refine ⟨k, hk, ?_, ?_, ?_⟩
      · rw [← hrk]
        exact Option.some.inj hc
      · rw [← hrk]
        exact hall
      · rw [← hrk]
        exact hfirst

/-- C7 witness: the amended characterization instantiated at the
two-snapshot tie database, where the returned count 100 comes from the
earliest inserted of the two tied snapshots. -/
theorem get_latest_follower_count_spec_witness :
    ∃ k, ∃ hk : k < (tieDb.records.filter (fun r => r.user_id == 7)).length,
      ((tieDb.records.filter (fun r => r.user_id == 7))[k]).follower_count = 100
      ∧ (∀ s ∈ tieDb.records.filter (fun r => r.user_id == 7),
          s.record_time ≤
            ((tieDb.records.filter (fun r => r.user_id == 7))[k]).record_time)
      ∧ (∀ j (hj : j < (tieDb.records.filter (fun r => r.user_id == 7)).length),
          j < k →
            ((tieDb.records.filter (fun r => r.user_id == 7))[j]).record_time
              < ((tieDb.records.filter (fun r => r.user_id == 7))[k]).record_time) :=
  (get_latest_follower_count_spec tieDb 7).2 100 (by decide)

/-! ## Task-log and task-status operations (core/database.py) -/

/-- Embeds `Database.insert_task_log` (database.py lines 464-492): append
a log row; ids grow with insertion order.  Returns state and log id. -/
def insert_task_log (db : DbState) (taskId : Nat) (startTime : Nat)
    (endTime : Option Nat) (status : String)
    (recordsCount successCount failedCount : Nat) (errorMessage : String) :
    DbState × Nat :=
  ({ db with
      logs := db.logs ++
        [⟨db.nextLogId, taskId, startTime, endTime, status, recordsCount,
          successCount, failedCount, errorMessage⟩],
      nextLogId := db.nextLogId + 1 },
    db.nextLogId)

/-- Embeds `Database.update_task_log` (database.py lines 494-544): each
field is written only when supplied (the Python None default means "not
supplied"). -/
def update_task_log (db : DbState) (logId : Nat) (endTime : Option Nat)
    (status : Option String) (recordsCount successCount failedCount : Option Nat)
    (errorMessage : Option String) : DbState :=
  { db with logs := db.logs.map fun l =>
      if l.id == logId then
        { l with
          end_time := match endTime with | some e => some e | none => l.end_time,
          status := status.getD l.status,
          records_count := recordsCount.getD l.records_count,
          success_count := successCount.getD l.success_count,
          failed_count := failedCount.getD l.failed_count,
          error_message := errorMessage.getD l.error_message }
      else l }

/-- Embeds `Database.update_task_status` (database.py lines 570-604):
always writes status and `updated_at`, and the optional fields only when
supplied. -/
def update_task_status (db : DbState) (taskId : Nat) (status : String)
    (lastRunTime nextRunTime : Option Nat) (retryCount : Option Nat)
    (now : Nat) : DbState :=
  { db with tasks := db.tasks.map fun t =>
      if t.id == taskId then
        { t with
          status := status,
          updated_at := now,
          last_run_time := match lastRunTime with | some x => some x | none => t.last_run_time,
          next_run_time := match nextRunTime with | some x => some x | none => t.next_run_time,
          retry_count := retryCount.getD t.retry_count }
      else t }

/-! ## Batch execution (core/scheduler.py, _execute_task) -/

/-- Outcome of `crawler.get_user_info` for one target: a user-info dict
(name and follower count), a None return, or a raised exception. -/
inductive FetchOutcome where
  | info (screenName : String) (followerCount : Nat)
  | noData
  | exn (msg : String)
deriving DecidableEq

/-- True exactly for the outcome where the crawler returned data. -/
def FetchOutcome.succeeded : FetchOutcome → Bool
  | .info _ _ => true
  | .noData => false
  | .exn _ => false

/-- Embeds one iteration of the weibo loop of `TaskScheduler._execute_task`
(scheduler.py lines 148-177): records_count is always incremented; on a
returned user-info dict the existing identity tag is read, the account
is upserted and a snapshot is appended (status "success", record_time =
the batch's start time) and success_count is incremented; on a None
return or a raised exception only failed_count is incremented and the
loop continues. -/
def processWeiboTarget (platformId startTime : Nat)
    (acc : DbState × Nat × Nat × Nat) (uid : String) (outcome : FetchOutcome) :
    DbState × Nat × Nat × Nat :=
  let db := acc.1
  let records := acc.2.1
  let succ := acc.2.2.1
  let failed := acc.2.2.2
  match outcome with
  | .info screenName followerCount =>
    let user? := get_user_by_platform_and_id db platformId uid
    let identity := match user? with
      | some u => u.user_identity
      | none => ""
    let ins := insert_user db platformId uid screenName identity "" startTime
    let db2 := (insert_follower_record ins.1 ins.2 platformId identity
      followerCount startTime "success" "").1
    (db2, records + 1, succ + 1, failed)
  | .noData => (db, records + 1, succ, failed + 1)
  | .exn _ => (db, records + 1, succ, failed + 1)

/-- The whole weibo target loop, driven by the target list paired with
each target's fetch outcome, starting from zeroed counters. -/
def runWeiboBatch (platformId startTime : Nat) (db : DbState)
    (targets : List (String × FetchOutcome)) : DbState × Nat × Nat × Nat :=
  targets.foldl (fun acc t => processWeiboTarget platformId startTime acc t.1 t.2)
    (db, 0, 0, 0)

/-- Embeds the completion path of `TaskScheduler._execute_task` for a
weibo task (scheduler.py lines 123-264): open the run log as "running",
run the target loop, derive the batch status, close the log with the
final counts and status, and update the task row with that status and
retry_count 0. -/
def execute_weibo_task (db : DbState) (taskId platformId : Nat)
    (startTime endTime : Nat) (targets : List (String × FetchOutcome)) : DbState :=
  let opened := insert_task_log db taskId startTime none "running" 0 0 0 ""
  let batch := runWeiboBatch platformId startTime opened.1 targets
  let status := deriveBatchStatus batch.2.2.1 batch.2.2.2
  let db3 := update_task_log batch.1 opened.2 (some endTime) (some status)
    (some batch.2.1) (some batch.2.2.1) (some batch.2.2.2) none
  update_task_status db3 taskId status (some endTime) none (some 0) endTime

/-! ## Helper lemmas on the batch loop -/

theorem insert_user_records_unchanged (db : DbState) (platformId : Nat)
    (userId n i a : String) (now : Nat) :
    (insert_user db platformId userId n i a now).1.records = db.records := by
  unfold insert_user
  split
  · rfl
  · rfl

theorem processWeiboTarget_step (platformId startTime : Nat) (db : DbState)
    (r s f : Nat) (uid : String) (o : FetchOutcome) :
    ((processWeiboTarget platformId startTime (db, r, s, f) uid o).2
        = (r + 1, s + (if o.succeeded then 1 else 0),
            f + (if o.succeeded then 0 else 1)))
    ∧ ((processWeiboTarget platformId startTime (db, r, s, f) uid o).1.records.length
        = db.records.length + (if o.succeeded then 1 else 0))
    ∧ (o.succeeded = false →
        (processWeiboTarget platformId startTime (db, r, s, f) uid o).1 = db) := by
  cases o with
  | info name cnt =>
    refine ⟨by simp [processWeiboTarget, FetchOutcome.succeeded], ?_,
      fun h => by simp [FetchOutcome.succeeded] at h⟩
    simp [processWeiboTarget, FetchOutcome.succeeded, insert_follower_record,
      insert_user_records_unchanged]
  | noData =>
    exact ⟨by simp [processWeiboTarget, FetchOutcome.succeeded],
      by simp [processWeiboTarget, FetchOutcome.succeeded], fun _ => rfl⟩
  | exn msg =>
    exact ⟨by simp [processWeiboTarget, FetchOutcome.succeeded],
      by simp [processWeiboTarget, FetchOutcome.succeeded], fun _ => rfl⟩

theorem runWeiboBatch_fold (platformId startTime : Nat) :
    ∀ (targets : List (String × FetchOutcome)) (db : DbState) (r s f : Nat),
      ((targets.foldl
          (fun acc t => processWeiboTarget platformId startTime acc t.1 t.2)
          (db, r, s, f)).2.1 = r + targets.length)
      ∧ ((targets.foldl
          (fun acc t => processWeiboTarget platformId startTime acc t.1 t.2)
          (db, r, s, f)).2.2.1
            = s + targets.countP (fun t => t.2.succeeded))
      ∧ ((targets.foldl
          (fun acc t => processWeiboTarget platformId startTime acc t.1 t.2)
          (db, r, s, f)).2.2.2
            = f + targets.countP (fun t => !t.2.succeeded))
      ∧ ((targets.foldl
          (fun acc t => processWeiboTarget platformId startTime acc t.1 t.2)
          (db, r, s, f)).1.records.length
            = db.records.length + targets.countP (fun t => t.2.succeeded)) := by
  intro targets
  induction targets with
  | nil =>
    intro db r s f
    simp
  | cons t rest ih =>
    intro db r s f
    obtain ⟨uid, o⟩ := t
    have hstep := processWeiboTarget_step platformId startTime db r s f uid o
    set q := processWeiboTarget platformId startTime (db, r, s, f) uid o with hq
    have hq2 : q = (q.1, r + 1, s + (if o.succeeded then 1 else 0),
        f + (if o.succeeded then 0 else 1)) := by
      rw [← hstep.1]
    rw [List.foldl_cons]
    rw [show processWeiboTarget platformId startTime (db, r, s, f) uid o = q from rfl]
    rw [hq2]
    have hrec := ih q.1 (r + 1) (s + (if o.succeeded then 1 else 0))
      (f + (if o.succeeded then 0 else 1))
    have hlen := hstep.2.1
    refine ⟨?_, ?_, ?_, ?_⟩
    · rw [hrec.1]
      simp only [List.length_cons]
      omega
    · rw [hrec.2.1]
      simp only [List.countP_cons]
      cases hsucc : o.succeeded <;> simp [hsucc] <;> omega
    · rw [hrec.2.2.1]
      simp only [List.countP_cons]
      cases hsucc : o.succeeded <;> simp [hsucc] <;> omega
    · rw [hrec.2.2.2, hlen]
      simp only [List.countP_cons]
      cases hsucc : o.succeeded <;> simp [hsucc] <;> omega

/-! ## C3 theorems -/

/-- Concrete starting state for the spec's two-target weibo scenario:
weibo platform id 1, one idle task row, no users and no snapshots. -/
def scenarioStartDb : DbState :=
  ⟨[], [], [⟨1, "weibo_follower_crawler", "23:59", true, none, none, 0, 3, "idle", 0⟩],
    [], 1, 1, 1⟩

/-- C3: targets are processed independently in list order — a target
whose fetch returns None or raises only increments the failed counter
and leaves the database untouched, the loop always processes the whole
list (records_count = N), a snapshot is appended exactly for the
targets whose fetch succeeded, and in the spec's concrete scenario (two
weibo targets, "111" succeeds with count 5000, "222" fails) the closed
run log reads records_count 2, success_count 1, failed_count 1, status
"partial_success", with exactly one snapshot row, belonging to "111",
and none for "222". -/
theorem batch_targets_independent (platformId startTime : Nat) (db : DbState)
    (targets : List (String × FetchOutcome)) :
    (∀ r s f uid msg,
        processWeiboTarget platformId startTime (db, r, s, f) uid .noData
          = (db, r + 1, s, f + 1)
        ∧ processWeiboTarget platformId startTime (db, r, s, f) uid (.exn msg)
          = (db, r + 1, s, f + 1))
    ∧ ((runWeiboBatch platformId startTime db targets).2.1 = targets.length)
    ∧ ((runWeiboBatch platformId startTime db targets).2.2.1
        = targets.countP (fun t => t.2.succeeded))
    ∧ ((runWeiboBatch platformId startTime db targets).2.2.2
        = targets.countP (fun t => !t.2.succeeded))
    ∧ ((runWeiboBatch platformId startTime db targets).1.records.length
        = db.records.length + targets.countP (fun t => t.2.succeeded))
    ∧ ((execute_weibo_task scenarioStartDb 1 1 10 20
          [("111", .info "Alice" 5000), ("222", .noData)]).logs
        = [⟨1, 1, 10, some 20, "partial_success", 2, 1, 1, ""⟩])
    ∧ ((execute_weibo_task scenarioStartDb 1 1 10 20
          [("111", .info "Alice" 5000), ("222", .noData)]).records
        = [⟨1, 1, 1, "", 5000, 10, "success", ""⟩])
    ∧ ((execute_weibo_task scenarioStartDb 1 1 10 20
          [("111", .info "Alice" 5000), ("222", .noData)]).users.map
            (fun u => u.user_id) = ["111"]) := by
  have hfold := runWeiboBatch_fold platformId startTime targets db 0 0 0
  refine ⟨fun r s f uid msg => ⟨rfl, rfl⟩, ?_, ?_, ?_, ?_, by decide, by decide,
    by decide⟩
  · rw [show (runWeiboBatch platformId startTime db targets).2.1
      = 0 + targets.length from hfold.1]
    omega
  · rw [show (runWeiboBatch platformId startTime db targets).2.2.1
      = 0 + targets.countP (fun t => t.2.succeeded) from hfold.2.1]
    omega
  · rw [show (runWeiboBatch platformId startTime db targets).2.2.2
      = 0 + targets.countP (fun t => !t.2.succeeded) from hfold.2.2.1]
    omega
  · exact hfold.2.2.2

/-! ## Retry state machine (core/scheduler.py lines 242-294) -/

/-- Result of one whole attempt of `_execute_task`: the batch completed
with the given success/failed counters, or an exception escaped the
batch. -/
inductive AttemptOutcome where
  | completes (successCount failedCount : Nat)
  | fault (msg : String)
deriving DecidableEq

/-- Embeds the task-row bookkeeping of one `_execute_task` attempt
(scheduler.py lines 242-294), viewed on the task's row.  A completed
batch writes the derived status and retry_count 0 (lines 254-259).  An
escaping exception increments retry_count by 1 and — iff the new value
is still ≤ max_retry — sets status "retrying" and starts a 60-second
timer re-invoking the task (the returned Bool); otherwise the task is
left in terminal "failed" (lines 277-293).  The db round-trip of
retry_count (written by update_task_status, re-read from the task row
at the next attempt's entry) is modelled as direct state passing. -/
def attemptStep (t : TaskRow) (endTime : Nat) (o : AttemptOutcome) :
    TaskRow × Bool :=
  match o with
  | .completes successCount failedCount =>
    ({ t with
        status := deriveBatchStatus successCount failedCount,
        last_run_time := some endTime, updated_at := endTime,
        retry_count := 0 }, false)
  | .fault _ =>
    let rc := t.retry_count + 1
    if rc ≤ t.max_retry then
      ({ t with
          status := "retrying", last_run_time := some endTime,
          updated_at := endTime, retry_count := rc }, true)
    else
      ({ t with
          status := "failed", last_run_time := some endTime,
          updated_at := endTime, retry_count := rc }, false)

theorem attemptStep_reschedule (t : TaskRow) (e : Nat) (o : AttemptOutcome)
    (t' : TaskRow) (h : attemptStep t e o = (t', true)) :
    t'.retry_count = t.retry_count + 1 ∧ t'.max_retry = t.max_retry
      ∧ t'.retry_count ≤ t.max_retry := by
  cases o with
  | completes s f =>
    exact absurd (congrArg Prod.snd h) (by simp [attemptStep])
  | fault msg =>
    simp only [attemptStep] at h
    by_cases hb : t.retry_count + 1 ≤ t.max_retry
    · rw [if_pos hb] at h
      have h1 := congrArg Prod.fst h
      simp only at h1
      subst h1
      exact ⟨rfl, rfl, hb⟩
    · rw [if_neg hb] at h
      exact absurd (congrArg Prod.snd h) (by simp)

/-- Number of attempts executed from one trigger: the current attempt,
plus — when it ends in a fault that still has retry budget — the
attempts of the timer-scheduled re-invocation.  The oracle `outcomes`
gives the result of each attempt and `times` its end time. -/
def attemptsFrom (t : TaskRow) (times : Nat → Nat)
    (outcomes : Nat → AttemptOutcome) (i : Nat) : Nat :=
  match h : attemptStep t (times i) (outcomes i) with
  | (t', true) => 1 + attemptsFrom t' times outcomes (i + 1)
  | (_, false) => 1
termination_by t.max_retry + 1 - t.retry_count
decreasing_by
  have := attemptStep_reschedule t (times i) (outcomes i) t' h
  omega

theorem attemptsFrom_le (times : Nat → Nat) (outcomes : Nat → AttemptOutcome) :
    ∀ (n : Nat) (t : TaskRow) (i : Nat),
      t.max_retry + 1 - t.retry_count ≤ n → t.retry_count ≤ t.max_retry →
        attemptsFrom t times outcomes i ≤ t.max_retry + 1 - t.retry_count := by
  intro n
  induction n with
  | zero =>
    intro t i hn hrc
    exact absurd hn (by omega)
  | succ n ih =>
    intro t i hn hrc
    rw [attemptsFrom]
    split
    · rename_i t' h
      have hre := attemptStep_reschedule t (times i) (outcomes i) t' h
      have hrec := ih t' (i + 1) (by omega) (by omega)
      omega
    · omega

/-! ## C5 theorems -/

/-- C5: a whole-batch fault increments retry_count by exactly 1; the
60-second delayed re-invocation is scheduled iff the incremented
retry_count is still ≤ max_retry; starting from retry_count 0, at most
max_retry + 1 attempts in total are executed from one trigger; and an
attempt whose batch completes with status "success" or
"partial_success" resets retry_count to 0. -/
theorem retry_state_machine (t : TaskRow) (e : Nat) (msg : String) :
    ((attemptStep t e (.fault msg)).1.retry_count = t.retry_count + 1)
    ∧ ((attemptStep t e (.fault msg)).2 = true ↔
        t.retry_count + 1 ≤ t.max_retry)
    ∧ (∀ s f, deriveBatchStatus s f = "success"
        ∨ deriveBatchStatus s f = "partial_success" →
          (attemptStep t e (.completes s f)).1.retry_count = 0)
    ∧ (∀ (times outcomes : Nat → _) (i : Nat), t.retry_count = 0 →
        attemptsFrom t times outcomes i ≤ t.max_retry + 1) := by
  refine ⟨?_, ?_, fun s f _ => rfl, ?_⟩
  · simp only [attemptStep]
    split
    · rfl
    · rfl
  · simp only [attemptStep]
    by_cases hb : t.retry_count + 1 ≤ t.max_retry
    · rw [if_pos hb]
      simp [hb]
    · rw [if_neg hb]
      simp [hb]
  · intro times outcomes i h0
    have := attemptsFrom_le times outcomes (t.max_retry + 1) t i (by omega)
      (by omega)
    omega

/-- C5 witness: with max_retry 3 and three straight faults followed by a
success, exactly 4 attempts run (≤ max_retry + 1), and the bookkeeping
facts hold at the concrete row. -/
theorem retry_state_machine_witness :
    ((attemptStep ⟨1, "weibo_follower_crawler", "23:59", true, none, none, 0, 3,
        "idle", 0⟩ 9 (.fault "boom")).1.retry_count = 1)
    ∧ (attemptsFrom ⟨1, "weibo_follower_crawler", "23:59", true, none, none, 0, 3,
        "idle", 0⟩ (fun _ => 9) (fun _ => .fault "boom") 0 ≤ 4) := by
  refine ⟨(retry_state_machine ⟨1, "weibo_follower_crawler", "23:59", true, none,
    none, 0, 3, "idle", 0⟩ 9 "boom").1, ?_⟩
  exact (retry_state_machine ⟨1, "weibo_follower_crawler", "23:59", true, none,
    none, 0, 3, "idle", 0⟩ 9 "boom").2.2.2 (fun _ => 9) (fun _ => .fault "boom")
    0 rfl

/-! ## Task resolution (scheduler.py lines 103-117, database.py 606-632) -/

/-- Embeds `Database.get_task_by_name` (database.py lines 606-620):
SELECT WHERE task_name with fetchone — the first matching row (the
column carries a UNIQUE constraint). -/
def get_task_by_name (db : DbState) (name : String) : Option TaskRow :=
  db.tasks.find? (fun t => t.task_name == name)

/-- Embeds `Database.get_all_tasks` (database.py lines 622-632): SELECT *
FROM schedule_tasks in table (rowid) order — the embedding's task list. -/
def get_all_tasks (db : DbState) : List TaskRow :=
  db.tasks

/-- Embeds the task resolution at the top of `TaskScheduler._execute_task`
(scheduler.py lines 110-113): when task_id ≤ the length of the full task
list, the list is indexed at position task_id - 1 and the task is then
re-fetched by that row's name; otherwise get_task_by_name(None) matches
nothing.  The embedding covers task_id ≥ 1, the values the scheduler
passes (stored task ids). -/
def resolveExecTask (db : DbState) (taskId : Nat) : Option TaskRow :=
  if taskId ≤ (get_all_tasks db).length then
    match (get_all_tasks db)[taskId - 1]? with
    | some t => get_task_by_name db t.task_name
    | none => none
  else none

/-- Resolution by primary key — the task whose id column equals the given
task_id.  Stated from the spec's words, for comparison with the source's
positional resolution. -/
def getTaskById (db : DbState) (taskId : Nat) : Option TaskRow :=
  db.tasks.find? (fun t => t.id == taskId)

theorem find?_first_index {α : Type} (p : α → Bool) :
    ∀ (l : List α) (k : Nat) (hk : k < l.length), p (l[k]) = true →
      (∀ j (hj : j < l.length), j < k → p (l[j]) = false) →
      l.find? p = some (l[k]) := by
  intro l
  induction l with
  | nil =>
    intro k hk
    exact absurd hk (by simp)
  | cons a l ih =>
    intro k hk hp hfirst
    cases k with
    | zero =>
      rw [List.find?_cons_of_pos _ (by simpa using hp)]
      simp
    | succ k' =>
      have ha : p a = false := by simpa using hfirst 0 (by omega) (by omega)
      rw [List.find?_cons_of_neg _ (by simp [ha])]
      have hrec := ih k' (by simpa using hk) (by simpa using hp)
        (fun j hj hjk => by
          simpa using hfirst (j + 1) (by simpa using hj) (by omega))
      simpa using hrec

/-! ## C9 theorems -/

/-- Task table with reordered ids: row order is [id 2, id 1]. -/
def reorderedTaskDb : DbState :=
  ⟨[], [],
    [⟨2, "a_crawler", "23:59", true, none, none, 0, 3, "idle", 0⟩,
     ⟨1, "b_crawler", "23:59", true, none, none, 0, 3, "idle", 0⟩],
    [], 1, 1, 1⟩

/-- Task table whose ids are exactly 1..2 in list order. -/
def contiguousTaskDb : DbState :=
  ⟨[], [],
    [⟨1, "weibo_follower_crawler", "23:59", true, none, none, 0, 3, "idle", 0⟩,
     ⟨2, "douyin_follower_crawler", "23:59", true, none, none, 0, 3, "idle", 0⟩],
    [], 1, 1, 1⟩

/-- C9: the execution path resolves the task positionally (index
task_id - 1 into the full task list) rather than by primary key.  When
the enumerated task list carries ids exactly 1..N in order (and names
are unique, as the schema's UNIQUE constraint guarantees), the
positional resolution agrees with resolution by primary key and returns
the task whose id equals task_id; with non-contiguous or reordered ids
the two resolutions can disagree, witnessed by a concrete two-row
table. -/
theorem task_resolution_positional (db : DbState) (taskId : Nat) :
    ((∀ (k : Nat) (hk : k < db.tasks.length), (db.tasks[k]).id = k + 1) →
     (∀ (k : Nat) (hk : k < db.tasks.length), ∀ (l : Nat) (hl : l < db.tasks.length),
        (db.tasks[k]).task_name = (db.tasks[l]).task_name → k = l) →
     1 ≤ taskId → taskId ≤ db.tasks.length →
       resolveExecTask db taskId = getTaskById db taskId
       ∧ ∃ t, resolveExecTask db taskId = some t ∧ t.id = taskId)
    ∧ resolveExecTask reorderedTaskDb 1 ≠ getTaskById reorderedTaskDb 1 := by
  constructor
  · intro hids hnames h1 h2
    have hk : taskId - 1 < db.tasks.length := by omega
    have hidx : (get_all_tasks db)[taskId - 1]? = some (db.tasks[taskId - 1]) := by
      simp [get_all_tasks, List.getElem?_eq_getElem hk]
    have hres : resolveExecTask db taskId
        = get_task_by_name db ((db.tasks[taskId - 1]).task_name) := by
      simp only [resolveExecTask, get_all_tasks, if_pos h2]
      rw [show db.tasks[taskId - 1]? = some (db.tasks[taskId - 1]) from
        List.getElem?_eq_getElem hk]
    have hfind1 : db.tasks.find?
        (fun t => t.task_name == (db.tasks[taskId - 1]).task_name)
          = some (db.tasks[taskId - 1]) := by
      apply find?_first_index _ db.tasks (taskId - 1) hk
      · simp
      · intro j hj hjk
        have hne : (db.tasks[j]).task_name ≠ (db.tasks[taskId - 1]).task_name :=
          fun hcontra => by
            have := hnames j hj (taskId - 1) hk hcontra
            omega
        simpa using hne
    have hfind2 : db.tasks.find? (fun t => t.id == taskId)
        = some (db.tasks[taskId - 1]) := by
      apply find?_first_index _ db.tasks (taskId - 1) hk
      · have hid := hids (taskId - 1) hk
        have : (db.tasks[taskId - 1]).id = taskId := by omega
        simp [this]
      · intro j hj hjk
        have hid := hids j hj
        have : (db.tasks[j]).id ≠ taskId := by omega
        simpa using this
    refine ⟨?_, db.tasks[taskId - 1], ?_, ?_⟩
    · rw [hres]
      unfold get_task_by_name getTaskById
      rw [hfind1, hfind2]
    · rw [hres]
      exact hfind1
    · have := hids (taskId - 1) hk
      omega
  · decide

/-- C9 witness: on a contiguous two-task table, executing task_id 2
resolves to the task whose primary key is 2 under both resolutions. -/
theorem task_resolution_positional_witness :
    resolveExecTask contiguousTaskDb 2 = getTaskById contiguousTaskDb 2
    ∧ ∃ t, resolveExecTask contiguousTaskDb 2 = some t ∧ t.id = 2 :=
  (task_resolution_positional contiguousTaskDb 2).1 (by decide) (by decide)
    (by decide) (by decide)

end SMM
